import Mathlib

/-!
Shallow embedding of the Tavli (Greek backgammon) game-rules engine.

Sources embedded here:
- `checkWinCondition`, `hasWonPortes`, `hasWonPlakoto`, `hasWonFevga`
  (src/server/src/handlers/get_chat_messages.ts, third document)
- `validateMove`, `calculateDestination`, `validateBearOff`,
  `getHomeBoardPoints`, `validateVariantRules`, `wouldCreateIllegalBlock`
  (src/unnamed/part_014, second document)
- `calculateAvailableMoves` and its helpers
  (src/server/src/handlers/calculate_available_moves.ts)
- `makeMove`'s validation chain and board update
  (src/server/src/handlers/make_move.ts)
- `initializeGameBoard` (src/unnamed/part_017, second document)
- the AI evaluation functions (src/server/src/handlers/make_ai_move.ts)

Conventions: TS numbers that hold point indices or die values become `Int`
(the handlers compare them against negative bounds); checker counts become
`Nat`; `null`-able colors become `Option Color`; `Array.prototype.find`
becomes `List.find?`.
-/

namespace Tavli

inductive Color where
  | white
  | black
deriving DecidableEq, Repr

def Color.opp : Color → Color
  | .white => .black
  | .black => .white

inductive Variant where
  | portes
  | plakoto
  | fevga
deriving DecidableEq, Repr

/-- One entry of the `board_state` JSON array: `{ point, color, count }`. -/
structure BoardPoint where
  point : Int
  color : Option Color
  count : Nat
deriving DecidableEq, Repr

/-- A `board_state` is an array of `BoardPoint`s (26 entries in a valid game,
indices 0..25, entry `i` carrying `point = i`). -/
abbrev Board := List BoardPoint

/-- Embeds `board.find(p => p.point === n)`. -/
def findPoint (b : Board) (n : Int) : Option BoardPoint :=
  b.find? (fun p => p.point == n)

/-- Summed count of `c`-colored checkers over the whole `board_state` array. -/
def colorTotal (b : Board) (c : Color) : Nat :=
  b.foldl (fun acc p => if p.color = some c then acc + p.count else acc) 0

/-! ## Win condition evaluator
(src/server/src/handlers/get_chat_messages.ts, lines 36-133 of the
concatenated file; `checkWinCondition` and the `hasWon*` helpers.)
These helpers read the board by array index (`boardState[i]`), not through
`find`, so they are embedded with `List.get?`/`b[i]?`. -/

/-- The loop body of `hasWonPortes`: count `playerColor` pieces over array
indices `0..24`. -/
def piecesOnBoardThrough24 (b : Board) (c : Color) : Nat :=
  (List.range 25).foldl
    (fun acc i =>
      match b[i]? with
      | some p => if p.color = some c then acc + p.count else acc
      | none => acc)
    0

/-- Embeds `hasWonPortes`: player wins iff no pieces remain on indices 0..24. -/
def hasWonPortes (b : Board) (c : Color) : Bool :=
  piecesOnBoardThrough24 b c == 0

/-- Embeds `hasWonPlakoto`: standard condition, or opponent on bar (index 0) while
the player holds >= 2 checkers on `opponentMotherPoint`
(`opponentColor === 'white' ? 1 : 24`). -/
def hasWonPlakoto (b : Board) (c : Color) : Bool :=
  if hasWonPortes b c then true
  else
    let opponentColor := c.opp
    let opponentMotherPoint : Nat := if opponentColor = .white then 1 else 24
    let opponentOnBar : Bool :=
      match b[0]? with
      | some barPoint => barPoint.color == some opponentColor && decide (0 < barPoint.count)
      | none => false
    let motherPointHeld : Bool :=
      match b[opponentMotherPoint]? with
      | some motherPoint => motherPoint.color == some c && decide (2 ≤ motherPoint.count)
      | none => false
    opponentOnBar && motherPointHeld

/-- Embeds `hasWonFevga`: same as Portes. -/
def hasWonFevga (b : Board) (c : Color) : Bool :=
  hasWonPortes b c

/-- Embeds `hasPlayerWon`: variant dispatch. -/
def hasPlayerWon (b : Board) (c : Color) (v : Variant) : Bool :=
  match v with
  | .portes => hasWonPortes b c
  | .plakoto => hasWonPlakoto b c
  | .fevga => hasWonFevga b c

/-- Embeds `checkWinCondition`: white is checked before black. -/
def checkWinCondition (b : Board) (v : Variant) : Option Color :=
  if hasPlayerWon b .white v then some .white
  else if hasPlayerWon b .black v then some .black
  else none

/-! ## Move legality checker
(src/unnamed/part_014, second document: `validateMove` and helpers.) -/

/-- The fields of `MakeMoveInput` consumed by the rules engine. -/
structure MoveInput where
  from_point : Int
  to_point : Int
  dice_value : Int
  player_color : Color
deriving DecidableEq, Repr

/-- The fields of `GameState` consumed by `validateMove`. -/
structure GameStateCore where
  board_state : Board
  dice : List Int
  available_moves : List Int
deriving DecidableEq, Repr

/-- Embeds `calculateDestination`. -/
def calculateDestination (fromPoint : Int) (diceValue : Int) (c : Color) : Int :=
  if fromPoint = 0 then
    if c = .white then diceValue else 25 - diceValue
  else
    if c = .white then fromPoint + diceValue else fromPoint - diceValue

/-- Embeds `getHomeBoardPoints`. -/
def getHomeBoardPoints (c : Color) : List Int :=
  if c = .white then [19, 20, 21, 22, 23, 24] else [1, 2, 3, 4, 5, 6]

/-- Embeds `validateBearOff`.  `Math.min(...pts)` / `Math.max(...pts)` of the
nonempty array of points become `List.min?` / `List.max?` (the code
returns `false` first when the array is empty). -/
def validateBearOff (fromPoint : Int) (diceValue : Int) (c : Color)
    (boardState : Board) : Bool :=
  let homeBoard := getHomeBoardPoints c
  let playerPieces := boardState.filter
    (fun p => p.color == some c && decide (0 < p.count))
  let allInHomeBoard := playerPieces.all
    (fun p => homeBoard.contains p.point || p.point == 25)
  if !allInHomeBoard then false
  else if !(homeBoard.contains fromPoint) then false
  else
    let distanceToBearOff : Int := if c = .white then 25 - fromPoint else fromPoint
    if distanceToBearOff == diceValue then true
    else if distanceToBearOff < diceValue then
      let piecesOnBoard := playerPieces.filter
        (fun p => p.point != 25 && p.point != 0)
      if piecesOnBoard.isEmpty then false
      else
        let pts := piecesOnBoard.map (fun p => p.point)
        let furthest : Option Int := if c = .white then pts.min? else pts.max?
        match furthest with
        | some f => fromPoint == f
        | none => false
    else false

/-- The board copy + destination bump inside `wouldCreateIllegalBlock`.
The source only ever reads the simulated board through
`find(p => p.point === point)`, i.e. through the first entry carrying a given
point index, and the code mutates exactly that first entry; transforming
every entry with that point index is read-equivalent. -/
def simulateFn (toPoint : Int) (c : Color) (p : BoardPoint) : BoardPoint :=
  if p.point = toPoint then
    if p.color = some c then { p with count := p.count + 1 }
    else { p with color := some c, count := 1 }
  else p

/-- The simulated board: the per-entry transformation mapped over the copy. -/
def simulateFevgaMove (boardState : Board) (toPoint : Int) (c : Color) : Board :=
  boardState.map (simulateFn toPoint c)

/-- Whether the scan in `wouldCreateIllegalBlock` sees `point` as occupied by
the player on board `b`. -/
def occupies (b : Board) (c : Color) (point : Int) : Bool :=
  match findPoint b point with
  | some boardPoint => boardPoint.color == some c && decide (0 < boardPoint.count)
  | none => false

/-- One step of the consecutive-run scan: the accumulator is
`(consecutiveCount, maxConsecutive)`. -/
def runStep (occ : Int → Bool) (acc : Nat × Nat) (point : Int) : Nat × Nat :=
  if occ point then (acc.1 + 1, max acc.2 (acc.1 + 1)) else (0, acc.2)

/-- The points `1..24` scanned by `wouldCreateIllegalBlock`. -/
def scanPoints : List Int := (List.range 24).map (fun i => (i : Int) + 1)

/-- Computes `maxConsecutive` as the scan loop of
`wouldCreateIllegalBlock`, over an arbitrary occupancy predicate. -/
def maxConsecutiveRun (occ : Int → Bool) : Nat :=
  (scanPoints.foldl (runStep occ) (0, 0)).2

/-- Embeds `wouldCreateIllegalBlock`. -/
def wouldCreateIllegalBlock (toPoint : Int) (c : Color) (boardState : Board) : Bool :=
  let simulatedBoard := simulateFevgaMove boardState toPoint c
  decide (6 ≤ maxConsecutiveRun (occupies simulatedBoard c))

/-- Embeds `validateVariantRules` (the `sourcePoint` argument is unused in the
source as well). -/
def validateVariantRules (input : MoveInput) (gameState : GameStateCore)
    (variant : Variant) (destPoint : BoardPoint) : Bool :=
  match variant with
  | .portes => true
  | .plakoto =>
    if destPoint.color != none && destPoint.color != some input.player_color then
      false
    else true
  | .fevga =>
    if destPoint.color != none && destPoint.color != some input.player_color then
      false
    else if destPoint.color == some input.player_color || destPoint.color == none then
      !wouldCreateIllegalBlock input.to_point input.player_color gameState.board_state
    else true

/-- Embeds `validateMove` (src/unnamed/part_014, lines 15-88). -/
def validateMove (input : MoveInput) (gameState : GameStateCore)
    (variant : Variant) : Bool :=
  if !(gameState.dice.contains input.dice_value) then false
  else if !(gameState.available_moves.contains input.dice_value) then false
  else if input.from_point < 0 || input.from_point > 25
      || input.to_point < 0 || input.to_point > 25 then false
  else
    match findPoint gameState.board_state input.from_point with
    | none => false
    | some sourcePoint =>
      if sourcePoint.color != some input.player_color || sourcePoint.count == 0 then
        false
      else
        let barBlocks : Bool :=
          match findPoint gameState.board_state 0 with
          | some barPoint =>
            barPoint.color == some input.player_color
              && decide (0 < barPoint.count) && input.from_point != 0
          | none => false
        if barBlocks then false
        else if input.to_point == 25 then
          validateBearOff input.from_point input.dice_value input.player_color
            gameState.board_state
        else
          let expectedDestination :=
            calculateDestination input.from_point input.dice_value input.player_color
          if input.to_point != expectedDestination then false
          else if expectedDestination < 1 || expectedDestination > 24 then false
          else
            match findPoint gameState.board_state input.to_point with
            | none => false
            | some destPoint =>
              if destPoint.color != none
                  && destPoint.color != some input.player_color
                  && decide (1 < destPoint.count) then false
              else validateVariantRules input gameState variant destPoint

/-! ## Legal move enumerator
(src/server/src/handlers/calculate_available_moves.ts.) -/

/-- The internal `Move` record `{ from, to, dice }` of the enumerator. -/
structure CMove where
  fromP : Int
  toP : Int
  dice : Int
deriving DecidableEq, Repr

/-- Embeds `canMoveToPoint`. -/
def canMoveToPoint (board : Board) (toPoint : Int) (playerColor : Color)
    (variant : Variant) : Bool :=
  match findPoint board toPoint with
  | none => true
  | some targetPoint =>
    if targetPoint.color == some playerColor then true
    else if targetPoint.color == none then true
    else
      -- opponent pieces
      match variant with
      | .portes => targetPoint.count == 1
      | .plakoto => false
      | .fevga => targetPoint.count == 1

/-- Embeds `getBarMoves`. -/
def getBarMoves (board : Board) (playerColor : Color) (dice : List Int)
    (variant : Variant) : List CMove :=
  let startPoint : Int := if playerColor = .white then 0 else 25
  dice.flatMap (fun die =>
    let targetPoint : Int := if playerColor = .white then die else 25 - die
    if canMoveToPoint board targetPoint playerColor variant then
      [⟨startPoint, targetPoint, die⟩]
    else [])

/-- Embeds `checkCanBearOff`. -/
def checkCanBearOff (board : Board) (playerColor : Color) : Bool :=
  let homeStart : Int := if playerColor = .white then 19 else 1
  let homeEnd : Int := if playerColor = .white then 24 else 6
  board.all (fun point =>
    if point.color == some playerColor && decide (0 < point.count) then
      if point.point < homeStart || point.point > homeEnd then
        point.point == 0 || point.point == 25
      else true
    else true)

/-- Whether the first entry carrying `point` holds the player's pieces (the
`boardPoint && boardPoint.color === playerColor && boardPoint.count > 0`
pattern of the enumerator). -/
def holdsPieces (board : Board) (point : Int) (playerColor : Color) : Bool :=
  match findPoint board point with
  | some boardPoint => boardPoint.color == some playerColor && decide (0 < boardPoint.count)
  | none => false

/-- Embeds `getBearOffMoves`; the descending (white) / ascending (black) scan for
the over-bearing source is a `find?` over the home points in scan order. -/
def getBearOffMoves (board : Board) (playerColor : Color) (dice : List Int) :
    List CMove :=
  let homeStart : Int := if playerColor = .white then 19 else 1
  let homeEnd : Int := if playerColor = .white then 24 else 6
  let bearOffPoint : Int := if playerColor = .white then 25 else 0
  dice.flatMap (fun die =>
    let exactPoint : Int := if playerColor = .white then 25 - die else die
    let exactMoves : List CMove :=
      if homeStart ≤ exactPoint && exactPoint ≤ homeEnd
          && holdsPieces board exactPoint playerColor then
        [⟨exactPoint, bearOffPoint, die⟩]
      else []
    let overMoves : List CMove :=
      if playerColor = .white then
        if 25 - die < homeStart then
          match ([24, 23, 22, 21, 20, 19] : List Int).find?
              (fun point => holdsPieces board point playerColor) with
          | some point => [⟨point, bearOffPoint, die⟩]
          | none => []
        else []
      else
        if die > homeEnd then
          match ([1, 2, 3, 4, 5, 6] : List Int).find?
              (fun point => holdsPieces board point playerColor) with
          | some point => [⟨point, bearOffPoint, die⟩]
          | none => []
        else []
    exactMoves ++ overMoves)

/-- Embeds `getMovesFromPoint`. -/
def getMovesFromPoint (board : Board) (fromPoint : Int) (playerColor : Color)
    (dice : List Int) (variant : Variant) : List CMove :=
  let direction : Int := if playerColor = .white then 1 else -1
  dice.flatMap (fun die =>
    let toPoint := fromPoint + die * direction
    if toPoint < 1 || toPoint > 24 then []
    else if canMoveToPoint board toPoint playerColor variant then
      [⟨fromPoint, toPoint, die⟩]
    else [])

/-- Worker for `filterOptimalMoves`: keep the first occurrence of each
`(from, to, dice)` triple (`findIndex(...) === index`), `seen` being the
already-scanned prefix. -/
def filterOptimalMovesGo (seen : List CMove) : List CMove → List CMove
  | [] => []
  | m :: rest =>
    if seen.contains m then filterOptimalMovesGo seen rest
    else m :: filterOptimalMovesGo (m :: seen) rest

/-- Embeds `filterOptimalMoves` via `filterOptimalMovesGo`. -/
def filterOptimalMoves (moves : List CMove) : List CMove :=
  filterOptimalMovesGo [] moves

def insertDesc (x : Int) : List Int → List Int
  | [] => [x]
  | y :: ys => if x ≥ y then x :: y :: ys else y :: insertDesc x ys

/-- Embeds `[...dice].sort((a, b) => b - a)`: the dice values in descending order
(any correct descending sort of integers produces the same list). -/
def sortDiceDesc : List Int → List Int
  | [] => []
  | x :: xs => insertDesc x (sortDiceDesc xs)

/-- Embeds `[...new Set(diceValues)]`: unique values in first-occurrence order. -/
def uniqueValues : List Int → List Int
  | [] => []
  | x :: xs => x :: (uniqueValues xs).filter (fun y => y ≠ x)

/-- The regular-move generation loop (`for point = 1..24`). -/
def regularMoves (board : Board) (playerColor : Color) (dice : List Int)
    (variant : Variant) : List CMove :=
  scanPoints.flatMap (fun point =>
    if holdsPieces board point playerColor then
      getMovesFromPoint board point playerColor dice variant
    else [])

/-- The color-dependent bar point used by `calculateAvailableMoves`:
`playerColor === 'white' ? 0 : 25`. -/
def enumeratorBarPoint (playerColor : Color) : Int :=
  if playerColor = .white then 0 else 25

/-- The `hasBarPieces` check of `calculateAvailableMoves`. -/
def hasBarPiecesCheck (board : Board) (playerColor : Color) : Bool :=
  (board.find? (fun p =>
    p.point == enumeratorBarPoint playerColor && p.color == some playerColor
      && decide (0 < p.count))).isSome

/-- The `validMoves` list computed by `calculateAvailableMoves` before it is
hashed into numeric identifiers. -/
def calculateAvailableMovesList (gameState : GameStateCore) (variant : Variant)
    (playerColor : Color) (dice : List Int) : List CMove :=
  let board := gameState.board_state
  let diceValues := sortDiceDesc dice
  let uniqueDice := uniqueValues diceValues
  let availableMoves : List CMove :=
    if hasBarPiecesCheck board playerColor then
      getBarMoves board playerColor uniqueDice variant
    else
      (if checkCanBearOff board playerColor then
        getBearOffMoves board playerColor uniqueDice
      else []) ++ regularMoves board playerColor uniqueDice variant
  filterOptimalMoves availableMoves

/-- Embeds `calculateAvailableMoves`: the hashed identifiers
`move.from * 1000 + move.to * 100 + move.dice + index`. -/
def calculateAvailableMoves (gameState : GameStateCore) (variant : Variant)
    (playerColor : Color) (dice : List Int) : List Int :=
  ((calculateAvailableMovesList gameState variant playerColor dice).enum).map
    (fun mi => mi.2.fromP * 1000 + mi.2.toP * 100 + mi.2.dice + (mi.1 : Int))

/-! ## Move application
(src/server/src/handlers/make_move.ts: the validation chain, move-type
classification and board update of `makeMove`, with the database rows passed
in as explicit optional records.) -/

inductive MoveType where
  | move
  | bear_off
  | enter_from_bar
  | nail
deriving DecidableEq, Repr

inductive MatchStatus where
  | pending
  | active
  | completed
deriving DecidableEq, Repr

inductive Phase where
  | rolling
  | moving
  | waiting
deriving DecidableEq, Repr

structure MatchRec where
  status : MatchStatus
  current_player_color : Color
deriving DecidableEq, Repr

structure GameStateRec where
  board_state : Board
  dice : List Int
  available_moves : List Int
  turn_number : Nat
  phase : Phase
deriving DecidableEq, Repr

/-- The move-type classification of `makeMove` (lines 63-81); the `blocked`
case throws `'Move is blocked by opponent pieces'`. -/
def determineMoveType (boardState : Board) (input : MoveInput) :
    Except String MoveType :=
  if input.to_point == 25 then .ok .bear_off
  else if input.from_point == 0 then .ok .enter_from_bar
  else
    match findPoint boardState input.to_point with
    | some toPoint =>
      if toPoint.color != none && toPoint.color != some input.player_color then
        if toPoint.count == 1 then .ok .nail
        else .error ("Move is blocked by opponent pieces")
      else .ok .move
    | none => .ok .move

/-- The `newBoardState` computation of `makeMove` (lines 84-113).  On a nail
the source mutates the bar entry of the original array in place; since the
`map` returns every entry other than `from_point`/`to_point` by reference,
that mutation is visible in `newBoardState` exactly on the entries embedded
here (boards whose bar entry is distinct from the source and target entries),
and the color written to the bar is the hit entry's old color, which on a
nail is the mover's opponent. -/
def updateFn (input : MoveInput) (moveType : MoveType) (point : BoardPoint) :
    BoardPoint :=
  if point.point = input.from_point then
    { point with
      count := point.count - 1
      color := if point.count = 1 then none else point.color }
  else if point.point = input.to_point then
    if moveType = .nail && point.color != some input.player_color then
      { point with count := 1, color := some input.player_color }
    else
      { point with count := point.count + 1, color := some input.player_color }
  else if moveType = .nail && point.point = 0 then
    { point with count := point.count + 1, color := some input.player_color.opp }
  else point

/-- The new `board_state`: the per-entry transformation mapped over the
array. -/
def updateBoardState (boardState : Board) (input : MoveInput)
    (moveType : MoveType) : Board :=
  boardState.map (updateFn input moveType)

/-- The result committed by a successful `makeMove`: the recorded move type,
the new `board_state`, the remaining dice and the next phase. -/
structure MoveOutcome where
  move_type : MoveType
  newBoardState : Board
  newDice : List Int
  nextPhase : Phase
deriving DecidableEq, Repr

/-- Embeds `makeMove` (lines 6-159) with the two database reads passed in as
optional rows: every `throw` becomes `.error` with the thrown message. -/
def makeMoveCore (matchRow? : Option MatchRec) (gameState? : Option GameStateRec)
    (input : MoveInput) : Except String MoveOutcome :=
  match matchRow? with
  | none => .error ("Match not found")
  | some matchRow =>
    if matchRow.status ≠ .active then .error ("Match is not active")
    else if matchRow.current_player_color ≠ input.player_color then
      .error ("Not your turn")
    else
      match gameState? with
      | none => .error ("Game state not found")
      | some gameState =>
        if gameState.phase ≠ .moving then .error ("Cannot make move during this phase")
        else if !(gameState.dice.contains input.dice_value) then
          .error ("Invalid dice value")
        else
          match findPoint gameState.board_state input.from_point with
          | none => .error ("No pieces available at source point")
          | some fromPoint =>
            if fromPoint.color != some input.player_color || fromPoint.count == 0 then
              .error ("No pieces available at source point")
            else
              match determineMoveType gameState.board_state input with
              | .error e => .error e
              | .ok moveType =>
                let newBoardState := updateBoardState gameState.board_state input moveType
                let newDice := gameState.dice.erase input.dice_value
                let nextPhase := if newDice.isEmpty then Phase.waiting else Phase.moving
                .ok ⟨moveType, newBoardState, newDice, nextPhase⟩

/-! ## Board initialization
(src/unnamed/part_017, second document: `initializeGameBoard`.) -/

/-- The 26-entry all-empty board the initializer starts from. -/
def emptyBoard : Board :=
  (List.range 26).map (fun i => ⟨(i : Int), none, 0⟩)

/-- Embeds `initializeGameBoard`'s `board_state` per variant (the `initialBoard[i] = ...`
assignments, in source order). -/
def initializeGameBoard (variant : Variant) : Board :=
  match variant with
  | .portes =>
    ((((((((emptyBoard.set 1 ⟨1, some .black, 2⟩).set 12 ⟨12, some .black, 5⟩).set
      17 ⟨17, some .black, 3⟩).set 19 ⟨19, some .black, 5⟩).set
      6 ⟨6, some .white, 5⟩).set 8 ⟨8, some .white, 3⟩).set
      13 ⟨13, some .white, 5⟩).set 24 ⟨24, some .white, 2⟩)
  | .plakoto =>
    (emptyBoard.set 1 ⟨1, some .black, 15⟩).set 24 ⟨24, some .white, 15⟩
  | .fevga =>
    (emptyBoard.set 24 ⟨24, some .white, 15⟩).set 24 ⟨24, some .black, 15⟩

/-! ## AI move evaluation
(src/server/src/handlers/make_ai_move.ts: the candidate scoring functions.) -/

structure GamePosition where
  board : Board
  dice : List Int
  aiColor : Color
  opponentColor : Color

/-- Embeds `countOpponentThreats`: opposing checkers within reach (dice 1..6) of the
target point. -/
def countOpponentThreats (position : GamePosition) (targetPoint : Int) : Nat :=
  ((List.range 6).map (fun i => (i : Int) + 1)).foldl
    (fun threats diceValue =>
      let threatPoint :=
        if position.aiColor = .black then targetPoint + diceValue
        else targetPoint - diceValue
      match findPoint position.board threatPoint with
      | some threatPiece =>
        if threatPiece.color == some position.opponentColor
            && decide (0 < threatPiece.count) then threats + 1
        else threats
      | none => threats)
    0

/-- Embeds `evaluateRegularMove` (make_ai_move.ts lines 258-296). -/
def evaluateRegularMove (position : GamePosition) (fromPoint toPoint : Int)
    (variant : Variant) : Int :=
  match findPoint position.board fromPoint, findPoint position.board toPoint with
  | some sourcePoint, some targetPoint =>
    let hitBonus : Int :=
      if targetPoint.color == some position.opponentColor && targetPoint.count == 1
      then 50 else 0
    let pointBonus : Int :=
      if targetPoint.color == some position.aiColor then 20 else 0
    let homeDirection : Int := if position.aiColor = .black then -1 else 1
    let homeBonus : Int :=
      if (toPoint - fromPoint) * homeDirection > 0 then 15 else 0
    let blotPenalty : Int := if sourcePoint.count == 1 then -10 else 0
    let plakotoPenalty : Int :=
      if variant = .plakoto then -((countOpponentThreats position toPoint : Int) * 5)
      else 0
    10 + hitBonus + pointBonus + homeBonus + blotPenalty + plakotoPenalty
  | _, _ => 10

/-- Embeds `evaluateEnterMove` (make_ai_move.ts lines 237-256). -/
def evaluateEnterMove (position : GamePosition) (toPoint : Int)
    (variant : Variant) : Int :=
  match findPoint position.board toPoint with
  | some targetPoint =>
    let hitBonus : Int :=
      if targetPoint.color == some position.opponentColor && targetPoint.count == 1
      then 30 else 0
    let distanceToHome : Int :=
      if position.aiColor = .black then toPoint else 25 - toPoint
    50 + hitBonus + (25 - distanceToHome)
  | none => 50

/-! ## Claim-side predicates
Definitions transcribed from the spec's wording, to be compared with the
embedded source functions (refinement-style). -/

/-- Spec wording for the home range: white 19-24, black 1-6. -/
def inHomeRange (c : Color) (pt : Int) : Bool :=
  if c = .white then decide (19 ≤ pt) && decide (pt ≤ 24)
  else decide (1 ≤ pt) && decide (pt ≤ 6)

/-- Spec wording: every checker of the mover sits in the mover's home range,
borne-off checkers (point 25) excluded. -/
def everyCheckerHome (b : Board) (c : Color) : Bool :=
  b.all (fun p =>
    if p.color == some c && decide (0 < p.count) then
      inHomeRange c p.point || p.point == 25
    else true)

/-- Spec wording: the point indices holding the mover's checkers, borne-off
excluded. -/
def occupiedPoints (b : Board) (c : Color) : List Int :=
  (b.filter (fun p => p.color == some c && decide (0 < p.count) && p.point != 25)).map
    (fun p => p.point)

/-- Spec wording: `fromPoint` is the mover's furthest-from-home occupied
point — the minimum occupied point index for white, the maximum for black. -/
def isFurthestFromHome (b : Board) (fromPoint : Int) (c : Color) : Bool :=
  (occupiedPoints b c).contains fromPoint &&
    (occupiedPoints b c).all (fun q =>
      if c = .white then decide (fromPoint ≤ q) else decide (q ≤ fromPoint))

/-- Bear-off legality as worded by the claim: every checker home, and the die
either matches the exact boundary distance or over-bears from the
furthest-from-home occupied point. -/
def bearOffSpec (b : Board) (fromPoint diceValue : Int) (c : Color) : Bool :=
  let boundaryDistance : Int := if c = .white then 25 - fromPoint else fromPoint
  everyCheckerHome b c &&
    (boundaryDistance == diceValue ||
      (decide (boundaryDistance < diceValue) && isFurthestFromHome b fromPoint c))

/-- The point on which `initializeGameBoard` stacks color `c`'s 15 checkers
under Plakoto (1 for black, 24 for white). -/
def ownStartingStackPoint (c : Color) : Nat :=
  if c = .white then 24 else 1

/-- The Plakoto special-win condition actually implemented: the opponent of
`c` has a checker on the bar (index 0) and `c` holds at least two checkers on
`c`'s own starting stack point. -/
def plakotoSpecialHolds (b : Board) (c : Color) : Bool :=
  (match b[0]? with
   | some barPoint => barPoint.color == some c.opp && decide (0 < barPoint.count)
   | none => false) &&
  (match b[ownStartingStackPoint c]? with
   | some motherPoint => motherPoint.color == some c && decide (2 ≤ motherPoint.count)
   | none => false)

/-- The claim's reading of the AI regular-move scoring: identical weights,
but with the blot penalty applied when the move leaves the origin with
exactly one remaining checker (origin count 2 before the move). -/
def claimedEvaluateRegularMove (position : GamePosition) (fromPoint toPoint : Int)
    (variant : Variant) : Int :=
  match findPoint position.board fromPoint, findPoint position.board toPoint with
  | some sourcePoint, some targetPoint =>
    let hitBonus : Int :=
      if targetPoint.color == some position.opponentColor && targetPoint.count == 1
      then 50 else 0
    let pointBonus : Int :=
      if targetPoint.color == some position.aiColor then 20 else 0
    let homeDirection : Int := if position.aiColor = .black then -1 else 1
    let homeBonus : Int :=
      if (toPoint - fromPoint) * homeDirection > 0 then 15 else 0
    let blotPenalty : Int := if sourcePoint.count - 1 == 1 then -10 else 0
    let plakotoPenalty : Int :=
      if variant = .plakoto then -((countOpponentThreats position toPoint : Int) * 5)
      else 0
    10 + hitBonus + pointBonus + homeBonus + blotPenalty + plakotoPenalty
  | _, _ => 10

/-- Amended description of the regular-move score: the sum of the base score
and the five weight terms, with the blot penalty keyed to an origin that held
exactly one checker before the move. -/
def amendedRegularScore (position : GamePosition) (fromPoint toPoint : Int)
    (variant : Variant) (sourcePoint targetPoint : BoardPoint) : Int :=
  let base : Int := 10
  let hitsBlot : Bool :=
    targetPoint.color == some position.opponentColor && targetPoint.count == 1
  let landsOnOwn : Bool := targetPoint.color == some position.aiColor
  let towardHome : Bool :=
    if position.aiColor = .black then toPoint < fromPoint else fromPoint < toPoint
  let emptiesOrigin : Bool := sourcePoint.count == 1
  let threatTerm : Int :=
    if variant = .plakoto then (countOpponentThreats position toPoint : Int) * 5 else 0
  base + (if hitsBlot then 50 else 0) + (if landsOnOwn then 20 else 0)
    + (if towardHome then 15 else 0) - (if emptiesOrigin then 10 else 0) - threatTerm

/-- Amended description of the bar-entry score: base 50, +30 for entering
onto an opponent blot, plus the proximity-to-home term. -/
def amendedEnterScore (position : GamePosition) (toPoint : Int)
    (targetPoint : BoardPoint) : Int :=
  let hitsBlot : Bool :=
    targetPoint.color == some position.opponentColor && targetPoint.count == 1
  let distanceToHome : Int :=
    if position.aiColor = .black then toPoint else 25 - toPoint
  50 + (if hitsBlot then 30 else 0) + (25 - distanceToHome)

/-- The claim's description of `makeMove`'s blocked-destination error: a
regular move (neither a bear-off nor a bar entry) whose destination is held
by two or more opponent checkers. -/
def blockedDestination (boardState : Board) (input : MoveInput) : Bool :=
  input.to_point != 25 && input.from_point != 0 &&
    (match findPoint boardState input.to_point with
     | some toPoint =>
       toPoint.color != none && toPoint.color != some input.player_color
         && decide (2 ≤ toPoint.count)
     | none => false)

/-! ## Concrete fixtures
Explicit boards, game states and inputs used by the counterexamples and
witnesses.  Boards are full 26-entry arrays, entry `i` carrying `point = i`;
each color totals 15 checkers unless noted. -/

/-- Builds a 26-entry board from the list of occupied points. -/
def mkBoard (occ : List (Int × Color × Nat)) : Board :=
  (List.range 26).map (fun i =>
    match occ.find? (fun e => e.1 == (i : Int)) with
    | some e => ⟨(i : Int), some e.2.1, e.2.2⟩
    | none => ⟨(i : Int), none, 0⟩)

/-- C1 fixture: white has a checker on the bar (point 0) and black has a
blot on point 3, the white entry point for die 3. -/
def c1Board : Board :=
  mkBoard [(0, .white, 1), (6, .white, 5), (8, .white, 3), (13, .white, 5),
           (24, .white, 1),
           (1, .black, 2), (3, .black, 1), (12, .black, 5), (17, .black, 3),
           (19, .black, 4)]

def c1Input : MoveInput := ⟨0, 3, 3, .white⟩

def c1GameState : GameStateCore := ⟨c1Board, [3, 5], [3, 5]⟩

def c1MatchRow : MatchRec := ⟨.active, .white⟩

def c1GameStateRec : GameStateRec := ⟨c1Board, [3, 5], [3, 5], 1, .moving⟩

/-- C2 witness fixture: all 15 white checkers borne off (index 25), black
absent from the board entirely, so both colors total zero on points 0-24. -/
def c2Board : Board := emptyBoard.set 25 ⟨25, some .white, 15⟩

/-- C3 counterexample fixture: black (the opponent) has a checker on the bar
and white holds two checkers on point 1 — the point where
`initializeGameBoard` stacks black's 15 Plakoto checkers. -/
def c3Board : Board :=
  mkBoard [(1, .white, 2), (6, .white, 5), (8, .white, 3), (13, .white, 5),
           (0, .black, 1), (12, .black, 5), (17, .black, 3), (19, .black, 5),
           (23, .black, 1)]

/-- C3 witness fixture (the claim's concrete example): black one checker on
point 0, white two checkers on point 24, balanced checkers elsewhere. -/
def c3WitnessBoard : Board :=
  mkBoard [(24, .white, 2), (6, .white, 5), (8, .white, 3), (13, .white, 5),
           (0, .black, 1), (12, .black, 5), (17, .black, 3), (19, .black, 5),
           (23, .black, 1)]

/-- C4 counterexample fixture (Fevga): white to move from point 10 with die
3; point 13 holds exactly one black checker; no six-prime can result. -/
def c4Board : Board :=
  mkBoard [(10, .white, 2), (6, .white, 5), (8, .white, 3), (19, .white, 5),
           (13, .black, 1), (12, .black, 5), (17, .black, 3), (23, .black, 1),
           (24, .black, 5)]

def c4Input : MoveInput := ⟨10, 13, 3, .white⟩

def c4GameState : GameStateCore := ⟨c4Board, [3], [3]⟩

/-- C5 witness fixture (the claim's concrete example): white only at point
20 (count 1) and point 23 (count 2); dice [6, 4]. -/
def c5Board : Board :=
  mkBoard [(20, .white, 1), (23, .white, 2), (1, .black, 15)]

def c5Input : MoveInput := ⟨20, 25, 6, .white⟩

def c5GameState : GameStateCore := ⟨c5Board, [6, 4], [6, 4]⟩

/-- C6 counterexample fixture: black has a checker on point 0 — the bar per
the spec's glossary — yet also checkers on point 10 that the enumerator
still moves, because `calculateAvailableMoves` looks for black's bar pieces
on point 25. -/
def c6Board : Board :=
  mkBoard [(0, .black, 1), (10, .black, 3), (12, .black, 5), (17, .black, 3),
           (19, .black, 3),
           (6, .white, 5), (8, .white, 3), (13, .white, 5), (24, .white, 2)]

def c6GameState : GameStateCore := ⟨c6Board, [2], [2]⟩

/-- C6 witness fixture: white with one checker on its bar (point 0). -/
def c6WhiteBoard : Board :=
  mkBoard [(0, .white, 1), (6, .white, 5), (8, .white, 3), (13, .white, 5),
           (24, .white, 1),
           (1, .black, 2), (12, .black, 5), (17, .black, 3), (19, .black, 5)]

def c6WhiteGameState : GameStateCore := ⟨c6WhiteBoard, [3], [3]⟩

/-- C7 counterexample fixture (Fevga): white occupies points 1-5; moving
from point 2 to the empty point 6 with die 4 creates a six-prime on points
1-6, yet the enumerator offers the move. -/
def c7Board : Board :=
  mkBoard [(1, .white, 2), (2, .white, 2), (3, .white, 2), (4, .white, 2),
           (5, .white, 2), (13, .white, 5), (24, .black, 15)]

def c7Input : MoveInput := ⟨2, 6, 4, .white⟩

def c7GameState : GameStateCore := ⟨c7Board, [4], [4]⟩

/-- C7 witness fixture (Fevga): a legal white move from point 10 to the
empty point 13 that creates no prime. -/
def c7WitnessBoard : Board :=
  mkBoard [(10, .white, 2), (6, .white, 5), (8, .white, 3), (19, .white, 5),
           (12, .black, 5), (17, .black, 3), (23, .black, 2), (24, .black, 5)]

def c7WitnessInput : MoveInput := ⟨10, 13, 3, .white⟩

def c7WitnessGameState : GameStateCore := ⟨c7WitnessBoard, [3], [3]⟩

/-- C8 fixture: black (the AI) holds two checkers on point 10; point 7 is
empty; moving 10 -> 7 with die 3 leaves the origin with exactly one checker. -/
def c8Board : Board :=
  mkBoard [(10, .black, 2), (17, .black, 3), (19, .black, 5), (20, .black, 5),
           (1, .white, 2), (6, .white, 5), (8, .white, 3), (13, .white, 5)]

def c8Position : GamePosition := ⟨c8Board, [3], .black, .white⟩

/-- C10 fixture: white moves from point 1 to point 24 with die 3 — a
destination unreachable with that die, yet accepted by `makeMove`. -/
def c10Board : Board :=
  mkBoard [(1, .white, 2), (6, .white, 5), (8, .white, 3), (13, .white, 5),
           (4, .black, 2), (12, .black, 5), (17, .black, 3), (19, .black, 5)]

def c10Input : MoveInput := ⟨1, 24, 3, .white⟩

def c10MatchRow : MatchRec := ⟨.active, .white⟩

def c10GameStateRec : GameStateRec := ⟨c10Board, [3, 4], [3, 4], 1, .moving⟩

/-! ## Helper lemmas -/

/-- A successful `find?` yields an element of the list. -/
theorem mem_of_findPoint_eq_some {b : Board} {n : Int} {p : BoardPoint}
    (h : findPoint b n = some p) : p ∈ b :=
  List.mem_of_find?_eq_some h

/-- A successful `find?` yields an element whose `point` field is the index
searched for. -/
theorem point_of_findPoint_eq_some {b : Board} {n : Int} {p : BoardPoint}
    (h : findPoint b n = some p) : p.point = n := by
  have := List.find?_some h
  simpa using this

/-- If the claimed blocked-destination condition fails and zero-count entries
are uncolored, `makeMove`'s move-type classification cannot throw. -/
theorem determineMoveType_isOk {b : Board} {input : MoveInput}
    (hblock : blockedDestination b input = false)
    (hclean : ∀ p ∈ b, p.count = 0 → p.color = none) :
    ∃ mt, determineMoveType b input = .ok mt := by
  unfold determineMoveType
  by_cases h25 : input.to_point = 25
  · exact ⟨.bear_off, by simp [h25]⟩
  · by_cases h0 : input.from_point = 0
    · exact ⟨.enter_from_bar, by simp [h25, h0]⟩
    · have e25 : (input.to_point == 25) = false := by simp [h25]
      have e0 : (input.from_point == 0) = false := by simp [h0]
      rw [e25, e0]
      simp only [Bool.false_eq_true, if_false]
      cases hfp : findPoint b input.to_point with
      | none => exact ⟨.move, rfl⟩
      | some tp =>
        by_cases hopp : (tp.color != none && tp.color != some input.player_color) = true
        · by_cases h1 : tp.count = 1
          · exact ⟨.nail, by simp [hopp, h1]⟩
          · exfalso
            obtain ⟨ha, hb⟩ : tp.color ≠ none ∧ tp.color ≠ some input.player_color := by
              simpa using hopp
            simp only [blockedDestination, hfp] at hblock
            simp [h25, h0, ha, hb] at hblock
            have hc0 : tp.count = 0 := by omega
            exact ha (hclean tp (mem_of_findPoint_eq_some hfp) hc0)
        · exact ⟨.move, by simp [hopp]⟩

/-! ## Claim theorems -/

/-- C1 (code bug evidence): from a valid Portes position in which each color
totals 15 checkers, the legal bar entry of white onto black's blot on point 3
(`validateMove` accepts it and `makeMove` applies it without error) is
classified `enter_from_bar`, not `nail`, so `makeMove`'s board update absorbs
the hit black checker instead of relocating it to the bar: black's total
drops to 14 and white's rises to 16, violating checker conservation. -/
theorem c1_barEntryHit_breaks_conservation :
    validateMove c1Input c1GameState .portes = true ∧
    colorTotal c1Board .white = 15 ∧
    colorTotal c1Board .black = 15 ∧
    determineMoveType c1Board c1Input = .ok .enter_from_bar ∧
    (makeMoveCore (some c1MatchRow) (some c1GameStateRec) c1Input).isOk = true ∧
    colorTotal (updateBoardState c1Board c1Input .enter_from_bar) .black = 14 ∧
    colorTotal (updateBoardState c1Board c1Input .enter_from_bar) .white = 16 :=
  ⟨by decide, by decide, by decide, rfl, by decide, by decide, by decide⟩

/-- C2: on every board on which white has zero checkers across points 0-24,
`checkWinCondition` returns white for every variant, regardless of black's
checkers (white is evaluated before black). -/
theorem c2_checkWinCondition_white_precedence (b : Board) (v : Variant)
    (h : piecesOnBoardThrough24 b .white = 0) :
    checkWinCondition b v = some .white := by
  have hw : hasWonPortes b .white = true := by
    simp [hasWonPortes, h]
  cases v <;>
    simp [checkWinCondition, hasPlayerWon, hasWonFevga, hasWonPlakoto, hw]

/-- Witness for C2 at a board where black's total on points 0-24 is also
zero: white still wins under every variant. -/
theorem c2_witness :
    piecesOnBoardThrough24 c2Board .white = 0 ∧
    piecesOnBoardThrough24 c2Board .black = 0 ∧
    checkWinCondition c2Board .portes = some .white ∧
    checkWinCondition c2Board .plakoto = some .white ∧
    checkWinCondition c2Board .fevga = some .white :=
  ⟨by decide, by decide,
    c2_checkWinCondition_white_precedence c2Board .portes (by decide),
    c2_checkWinCondition_white_precedence c2Board .plakoto (by decide),
    c2_checkWinCondition_white_precedence c2Board .fevga (by decide)⟩

/-- C9 (code bug evidence): for Fevga, the initializer's second assignment to
`initialBoard[24]` overwrites white's 15-checker stack, so the produced board
holds zero white checkers and only black's 15 on point 24 — contradicting the
initializer's own comments that both players start stacked on point 24. -/
theorem c9_fevga_init_overwrites_white :
    colorTotal (initializeGameBoard .fevga) .white = 0 ∧
    colorTotal (initializeGameBoard .fevga) .black = 15 ∧
    findPoint (initializeGameBoard .fevga) 24 = some ⟨24, some .black, 15⟩ :=
  ⟨by decide, by decide, by decide⟩

/-- C10: `makeMove` succeeds whenever the match exists and is active, it is
the acting player's turn, the game state exists in phase `moving`, the die is
among the state's dice, the source point holds the mover's checkers, and no
regular-move destination is held by two or more opponent checkers — it never
checks that `to_point` is reachable from `from_point` with the die, so the
concrete white move from point 1 to point 24 with die 3 is applied without
error. -/
theorem c10_makeMove_error_taxonomy :
    (∀ (matchRow : MatchRec) (gameState : GameStateRec) (input : MoveInput)
        (fp : BoardPoint),
      matchRow.status = .active →
      matchRow.current_player_color = input.player_color →
      gameState.phase = .moving →
      gameState.dice.contains input.dice_value = true →
      findPoint gameState.board_state input.from_point = some fp →
      fp.color = some input.player_color →
      fp.count ≠ 0 →
      (∀ p ∈ gameState.board_state, p.count = 0 → p.color = none) →
      blockedDestination gameState.board_state input = false →
      (makeMoveCore (some matchRow) (some gameState) input).isOk = true) ∧
    ((makeMoveCore (some c10MatchRow) (some c10GameStateRec) c10Input).isOk = true ∧
      c10Input.to_point ≠ c10Input.from_point + c10Input.dice_value ∧
      c10Input.to_point ≠ c10Input.from_point - c10Input.dice_value) := by
  constructor
  · intro matchRow gameState input fp hst hturn hph hdice hfp hc hcnt hclean hblock
    obtain ⟨mt, hmt⟩ := determineMoveType_isOk hblock hclean
    have hmem : input.dice_value ∈ gameState.dice := by simpa using hdice
    simp [makeMoveCore, hst, hturn, hph, hmem, hfp, hc, hcnt, hmt, Except.isOk, Except.toBool]
  · exact ⟨by decide, by decide, by decide⟩

/-- Witness for C10: the general part applied at the concrete fixture. -/
theorem c10_witness :
    (makeMoveCore (some c10MatchRow) (some c10GameStateRec) c10Input).isOk = true :=
  c10_makeMove_error_taxonomy.1 c10MatchRow c10GameStateRec c10Input
    ⟨1, some .white, 2⟩ rfl rfl rfl (by decide) (by decide) rfl (by decide)
    (by decide) (by decide)

/-- Under Plakoto with the standard condition false, `hasWonPlakoto` is the
special condition keyed to the winner's own starting stack point. -/
theorem hasWonPlakoto_eq_special {b : Board} {c : Color}
    (h : hasWonPortes b c = false) :
    hasWonPlakoto b c = plakotoSpecialHolds b c := by
  cases c <;>
    simp [hasWonPlakoto, plakotoSpecialHolds, h, Color.opp, ownStartingStackPoint]

/-- The special condition cannot hold for both colors at once: the bar entry
carries a single color. -/
theorem plakotoSpecial_not_both {b : Board}
    (hw : plakotoSpecialHolds b .white = true)
    (hb : plakotoSpecialHolds b .black = true) : False := by
  simp only [plakotoSpecialHolds, Bool.and_eq_true] at hw hb
  cases hbar : b[0]? with
  | none => rw [hbar] at hw; simp at hw
  | some bar =>
    rw [hbar] at hw hb
    have h1 : bar.color = some Color.black := by
      have := hw.1; simp [Color.opp] at this; exact this.1
    have h2 : bar.color = some Color.white := by
      have := hb.1; simp [Color.opp] at this; exact this.1
    rw [h1] at h2
    simp at h2

/-- C3 (corrected): when neither color satisfies the standard condition,
`checkWinCondition` under Plakoto returns color `c` exactly when `c`'s
opponent has a checker on the bar (index 0) and `c` holds at least two
checkers on `c`'s *own* starting stack point (24 for white, 1 for black) —
not on the opponent's starting stack point as the claim words it; the
conjunct about `initializeGameBoard` records which point that is. -/
theorem c3_plakoto_special_amended (b : Board) (c : Color)
    (hw : hasWonPortes b .white = false) (hb : hasWonPortes b .black = false) :
    (checkWinCondition b .plakoto = some c ↔ plakotoSpecialHolds b c = true) ∧
    findPoint (initializeGameBoard .plakoto) ((ownStartingStackPoint c : Nat) : Int) =
      some ⟨((ownStartingStackPoint c : Nat) : Int), some c, 15⟩ := by
  constructor
  · have ew := hasWonPlakoto_eq_special hw
    have eb := hasWonPlakoto_eq_special hb
    by_cases hsw : plakotoSpecialHolds b .white = true
    · have hck : checkWinCondition b .plakoto = some .white := by
        simp [checkWinCondition, hasPlayerWon, ew, hsw]
      rw [hck]
      cases c with
      | white => simp [hsw]
      | black =>
        have hsb : plakotoSpecialHolds b .black = false := by
          by_contra hx
          refine plakotoSpecial_not_both hsw ?_
          revert hx
          cases plakotoSpecialHolds b .black <;> simp
        simp [hsb]
    · have hsw' : hasWonPlakoto b .white = false := by
        rw [ew]; exact Bool.eq_false_iff.mpr hsw
      have hswf : plakotoSpecialHolds b .white = false := Bool.eq_false_iff.mpr hsw
      by_cases hsb : plakotoSpecialHolds b .black = true
      · have hck : checkWinCondition b .plakoto = some .black := by
          simp [checkWinCondition, hasPlayerWon, hsw', eb, hsb]
        rw [hck]
        cases c with
        | white => simp [hswf]
        | black => simp [hsb]
      · have hsbf : plakotoSpecialHolds b .black = false := Bool.eq_false_iff.mpr hsb
        have hsb' : hasWonPlakoto b .black = false := by rw [eb]; exact hsbf
        have hck : checkWinCondition b .plakoto = none := by
          simp [checkWinCondition, hasPlayerWon, hsw', hsb']
        rw [hck]
        cases c with
        | white => simp [hswf]
        | black => simp [hsbf]
  · cases c <;> decide

/-- Counterexample for C3 as stated: black — white's opponent — has a
checker on the bar and white holds two checkers on point 1, the point where
`initializeGameBoard` stacks black's (the opponent's) 15 Plakoto checkers;
neither standard condition holds, yet `checkWinCondition` returns `none`
rather than white, because the code inspects point 24, not the opponent's
starting stack point. -/
theorem c3_counterexample :
    findPoint (initializeGameBoard .plakoto) 1 = some ⟨1, some .black, 15⟩ ∧
    c3Board[0]? = some ⟨0, some .black, 1⟩ ∧
    c3Board[1]? = some ⟨1, some .white, 2⟩ ∧
    hasWonPortes c3Board .white = false ∧
    hasWonPortes c3Board .black = false ∧
    checkWinCondition c3Board .plakoto = none :=
  ⟨by decide, by decide, by decide, by decide, by decide, by decide⟩

/-- Witness for C3's amended theorem at the claim's own concrete board:
black one checker on point 0, white two checkers on point 24. -/
theorem c3_witness :
    checkWinCondition c3WitnessBoard .plakoto = some .white :=
  ((c3_plakoto_special_amended c3WitnessBoard .white (by decide) (by decide)).1).mpr
    (by decide)

/-- C4 (corrected), part 1: under Fevga, `validateMove` rejects every move
whose destination is opponent-occupied, even a single checker; part 2: the
enumerator's `canMoveToPoint` instead admits exactly the singleton case
(`count == 1`), so the two legality paths disagree on Fevga hits. -/
theorem c4_fevga_hit_amended :
    (∀ (input : MoveInput) (gs : GameStateCore) (dp : BoardPoint),
      input.to_point ≠ 25 →
      findPoint gs.board_state input.to_point = some dp →
      dp.color ≠ none → dp.color ≠ some input.player_color →
      validateMove input gs .fevga = false) ∧
    (∀ (board : Board) (toPoint : Int) (c : Color) (dp : BoardPoint),
      findPoint board toPoint = some dp →
      dp.color = some c.opp →
      canMoveToPoint board toPoint c .fevga = (dp.count == 1)) := by
  constructor
  · intro input gs dp h25 hdp hne hnp
    have h25' : (input.to_point == 25) = false := by simpa using h25
    have e1 : (dp.color != none) = true := by simpa using hne
    have e2 : (dp.color != some input.player_color) = true := by simpa using hnp
    have hvr : validateVariantRules input gs .fevga dp = false := by
      unfold validateVariantRules
      simp [e1, e2]
    unfold validateMove
    rw [h25', hdp]
    cases hsp : findPoint gs.board_state input.from_point with
    | none => simp
    | some sp =>
      cases hbar : findPoint gs.board_state 0 with
      | none => simp [hvr]
      | some bp => simp [hvr]
  · intro board toPoint c dp hdp hopp
    unfold canMoveToPoint
    rw [hdp]
    have h1 : (dp.color == some c) = false := by
      cases c <;> simp_all [Color.opp]
    have h2 : (dp.color == none) = false := by simp [hopp]
    simp [h1, h2]

/-- Counterexample for C4 as stated: a Fevga single-die move onto a point
held by exactly one black checker, with the die available, a white source,
no bar pieces, and no six-prime created — the enumerator lists it, yet
`validateMove` returns `false`, where the claim requires `true`. -/
theorem c4_counterexample :
    findPoint c4Board 13 = some ⟨13, some .black, 1⟩ ∧
    wouldCreateIllegalBlock 13 .white c4Board = false ∧
    canMoveToPoint c4Board 13 .white .fevga = true ∧
    CMove.mk 10 13 3 ∈ calculateAvailableMovesList c4GameState .fevga .white [3] ∧
    validateMove c4Input c4GameState .fevga = false :=
  ⟨by decide, by decide, by decide, by decide, by decide⟩

/-- Witness for C4's amended theorem at the concrete fixture. -/
theorem c4_witness :
    validateMove c4Input c4GameState .fevga = false ∧
    canMoveToPoint c4Board 13 .white .fevga = true :=
  ⟨c4_fevga_hit_amended.1 c4Input c4GameState ⟨13, some .black, 1⟩
      (by decide) (by decide) (by decide) (by decide),
    (c4_fevga_hit_amended.2 c4Board 13 .white ⟨13, some .black, 1⟩
      (by decide) (by decide)).trans (by decide)⟩

/-- Every move produced by `filterOptimalMovesGo` comes from the scanned
list. -/
theorem mem_of_mem_filterOptimalMovesGo {m : CMove} :
    ∀ {seen l : List CMove}, m ∈ filterOptimalMovesGo seen l → m ∈ l := by
  intro seen l
  induction l generalizing seen with
  | nil => intro h; simp [filterOptimalMovesGo] at h
  | cons m0 rest ih =>
    intro h
    unfold filterOptimalMovesGo at h
    by_cases hc : seen.contains m0
    · rw [if_pos hc] at h
      exact List.mem_cons_of_mem _ (ih h)
    · rw [if_neg hc] at h
      rcases List.mem_cons.mp h with h | h
      · exact h ▸ List.mem_cons_self _ _
      · exact List.mem_cons_of_mem _ (ih h)

/-- Every bar-entry candidate originates at the enumerator's bar point. -/
theorem getBarMoves_fromP {board : Board} {c : Color} {dice : List Int}
    {v : Variant} {m : CMove} (h : m ∈ getBarMoves board c dice v) :
    m.fromP = (if c = .white then (0 : Int) else 25) := by
  unfold getBarMoves at h
  rw [List.mem_flatMap] at h
  obtain ⟨die, _, hm⟩ := h
  by_cases hc : canMoveToPoint board (if c = .white then die else 25 - die) c v
  · rw [if_pos hc] at hm
    rcases List.mem_singleton.mp hm with rfl
    rfl
  · rw [if_neg hc] at hm
    simp at hm

/-- C6 (corrected): `calculateAvailableMoves` and `validateMove` use
different bar conventions.  Part 1: whenever the mover has checkers on the
bar point the *enumerator* assigns it (0 for white, 25 for black), every
enumerated move originates there.  Part 2: `validateMove` rejects any
non-bar-origin move whenever the mover has a checker on point 0 — its bar
for both colors.  For black these two points differ, so the claim as stated
fails (see the counterexample). -/
theorem c6_bar_priority_amended :
    (∀ (gs : GameStateCore) (v : Variant) (c : Color) (dice : List Int),
      hasBarPiecesCheck gs.board_state c = true →
      ∀ m ∈ calculateAvailableMovesList gs v c dice,
        m.fromP = (if c = .white then (0 : Int) else 25)) ∧
    (∀ (input : MoveInput) (gs : GameStateCore) (v : Variant) (bp : BoardPoint),
      findPoint gs.board_state 0 = some bp →
      bp.color = some input.player_color →
      0 < bp.count →
      input.from_point ≠ 0 →
      validateMove input gs v = false) := by
  constructor
  · intro gs v c dice hbar m hm
    simp only [calculateAvailableMovesList, hbar, eq_self_iff_true, if_true] at hm
    unfold filterOptimalMoves at hm
    exact getBarMoves_fromP (mem_of_mem_filterOptimalMovesGo hm)
  · intro input gs v bp hbp hc hcount h0
    have hbarT : (bp.color == some input.player_color && decide (0 < bp.count)
        && input.from_point != 0) = true := by
      simp [hc, hcount, h0]
    unfold validateMove
    rw [hbp]
    cases hsp : findPoint gs.board_state input.from_point with
    | none => simp
    | some sp => simp [hbarT]

/-- Counterexample for C6 as stated: black has a checker on point 0 — the
bar per the spec's data model — yet `calculateAvailableMoves` still
enumerates the regular move from point 12 to point 10, because its bar check
for black looks at point 25. -/
theorem c6_counterexample :
    findPoint c6Board 0 = some ⟨0, some .black, 1⟩ ∧
    CMove.mk 12 10 2 ∈ calculateAvailableMovesList c6GameState .portes .black [2] ∧
    (12 : Int) ≠ 0 :=
  ⟨by decide, by decide, by decide⟩

/-- Witness for C6's amended theorem: white on the bar restricts the
enumerated move's origin to point 0, and a black checker on point 0 makes
`validateMove` reject a non-bar move. -/
theorem c6_witness :
    (CMove.mk 0 3 3).fromP = (if Color.white = .white then (0 : Int) else 25) ∧
    validateMove ⟨10, 8, 2, .black⟩ c6GameState .portes = false :=
  ⟨c6_bar_priority_amended.1 c6WhiteGameState .portes .white [3] (by decide)
      (CMove.mk 0 3 3) (by decide),
    c6_bar_priority_amended.2 ⟨10, 8, 2, .black⟩ c6GameState .portes
      ⟨0, some .black, 1⟩ (by decide) (by decide) (by decide) (by decide)⟩

/-- C8 (corrected): the amended weight table proved against the evaluators —
+50 regular hit on an opponent blot, +30 bar-entry hit, +20 for landing on a
point the AI already holds, +15 for advancing toward home, and −10 when the
origin held exactly one checker before the move (the move empties it), not
when it leaves exactly one behind; Plakoto subtracts 5 per threatening
opponent checker, and bar entries add a proximity term. -/
theorem c8_scoring_amended :
    (∀ (position : GamePosition) (fromPoint toPoint : Int) (variant : Variant)
        (sp tp : BoardPoint),
      findPoint position.board fromPoint = some sp →
      findPoint position.board toPoint = some tp →
      evaluateRegularMove position fromPoint toPoint variant =
        amendedRegularScore position fromPoint toPoint variant sp tp) ∧
    (∀ (position : GamePosition) (toPoint : Int) (variant : Variant)
        (tp : BoardPoint),
      findPoint position.board toPoint = some tp →
      evaluateEnterMove position toPoint variant =
        amendedEnterScore position toPoint tp) := by
  constructor
  · intro position fromPoint toPoint variant sp tp hs ht
    unfold evaluateRegularMove amendedRegularScore
    rw [hs, ht]
    cases hcol : position.aiColor <;>
      simp only [hcol, reduceCtorEq, if_true, if_false, reduceIte, mul_one,
        mul_neg_one, gt_iff_lt, neg_pos, sub_neg, sub_pos, decide_eq_true_eq] <;>
      split_ifs <;> omega
  · intro position toPoint variant tp ht
    unfold evaluateEnterMove amendedEnterScore
    rw [ht]

/-- Counterexample for C8 as stated: moving one of two black checkers from
point 10 to the empty point 7 leaves the origin with exactly one remaining
checker, so the claim's scoring demands the −10 penalty (total 15), but the
code only penalizes an origin holding exactly one checker before the move
and scores 25. -/
theorem c8_counterexample :
    findPoint c8Board 10 = some ⟨10, some .black, 2⟩ ∧
    findPoint c8Board 7 = some ⟨7, none, 0⟩ ∧
    evaluateRegularMove c8Position 10 7 .portes = 25 ∧
    claimedEvaluateRegularMove c8Position 10 7 .portes = 15 ∧
    (25 : Int) ≠ 15 :=
  ⟨by decide, by decide, by decide, by decide, by decide⟩

/-- Witness for C8's amended theorem at concrete moves. -/
theorem c8_witness :
    evaluateRegularMove c8Position 10 7 .portes =
      amendedRegularScore c8Position 10 7 .portes ⟨10, some .black, 2⟩ ⟨7, none, 0⟩ ∧
    evaluateEnterMove c8Position 5 .portes =
      amendedEnterScore c8Position 5 ⟨5, none, 0⟩ :=
  ⟨c8_scoring_amended.1 c8Position 10 7 .portes ⟨10, some .black, 2⟩ ⟨7, none, 0⟩
      (by decide) (by decide),
    c8_scoring_amended.2 c8Position 5 .portes ⟨5, none, 0⟩ (by decide)⟩

/-- The per-entry update of `makeMove` preserves the `point` field. -/
theorem updateFn_point (input : MoveInput) (mt : MoveType) (p : BoardPoint) :
    (updateFn input mt p).point = p.point := by
  unfold updateFn
  split_ifs <;> rfl

/-- The per-entry simulation of `wouldCreateIllegalBlock` preserves the
`point` field. -/
theorem simulateFn_point (toPoint : Int) (c : Color) (p : BoardPoint) :
    (simulateFn toPoint c p).point = p.point := by
  unfold simulateFn
  split_ifs <;> rfl

/-- A point-preserving transformation commutes with `findPoint`. -/
theorem findPoint_map (f : BoardPoint → BoardPoint)
    (hf : ∀ p, (f p).point = p.point) (b : Board) (n : Int) :
    findPoint (b.map f) n = (findPoint b n).map f := by
  induction b with
  | nil => rfl
  | cons hd tl ih =>
    unfold findPoint at ih ⊢
    simp only [List.map_cons]
    rw [List.find?_cons, List.find?_cons]
    have hb : ((f hd).point == n) = (hd.point == n) := by rw [hf]
    simp only [hb]
    cases hpt : (hd.point == n) with
    | true => rfl
    | false => exact ih

/-- For a non-nail move, every point the mover occupies after `makeMove`'s
board update is also occupied on the board `wouldCreateIllegalBlock`
simulates (the simulation only skips the source decrement). -/
theorem occupies_update_imp_simulate (b : Board) (input : MoveInput)
    (mt : MoveType) (hmt : mt ≠ .nail) (pt : Int) :
    occupies (updateBoardState b input mt) input.player_color pt = true →
    occupies (simulateFevgaMove b input.to_point input.player_color)
      input.player_color pt = true := by
  intro h
  unfold occupies at h ⊢
  unfold updateBoardState at h
  unfold simulateFevgaMove
  rw [findPoint_map _ (updateFn_point input mt)] at h
  rw [findPoint_map _ (simulateFn_point input.to_point input.player_color)]
  cases hfp : findPoint b pt with
  | none => rw [hfp] at h; simp at h
  | some p =>
    rw [hfp] at h
    simp only [Option.map_some'] at h ⊢
    unfold updateFn at h
    unfold simulateFn
    by_cases h1 : p.point = input.from_point
    · rw [if_pos h1] at h
      simp only [Bool.and_eq_true, beq_iff_eq, decide_eq_true_eq] at h
      obtain ⟨hcol, hcnt⟩ := h
      have hp2 : p.count ≠ 1 := by
        intro hx
        rw [if_pos hx] at hcol
        simp at hcol
      rw [if_neg hp2] at hcol
      by_cases h2 : p.point = input.to_point
      · rw [if_pos h2, if_pos hcol]
        simp [hcol]
      · rw [if_neg h2]
        have hpc : 0 < p.count := by omega
        simp [hcol, hpc]
    · rw [if_neg h1] at h
      by_cases h2 : p.point = input.to_point
      · rw [if_pos h2] at h
        rw [if_pos h2]
        have hnail : (decide (mt = MoveType.nail)
            && p.color != some input.player_color) = false := by
          simp [hmt]
        rw [hnail] at h
        simp only [Bool.false_eq_true, if_false] at h
        by_cases h3 : p.color = some input.player_color
        · rw [if_pos h3]; simp [h3]
        · rw [if_neg h3]; simp
      · rw [if_neg h2] at h
        rw [if_neg h2]
        have hnail : (decide (mt = MoveType.nail) && decide (p.point = 0)) = false := by
          simp [hmt]
        rw [hnail] at h
        simp only [Bool.false_eq_true, if_false] at h
        exact h

/-- The consecutive-run fold is monotone in the occupancy predicate and the
accumulator, componentwise. -/
theorem runFold_mono (occA occB : Int → Bool) (l : List Int)
    (h : ∀ pt ∈ l, occA pt = true → occB pt = true) :
    ∀ (accA accB : Nat × Nat), accA.1 ≤ accB.1 → accA.2 ≤ accB.2 →
      (l.foldl (runStep occA) accA).1 ≤ (l.foldl (runStep occB) accB).1 ∧
      (l.foldl (runStep occA) accA).2 ≤ (l.foldl (runStep occB) accB).2 := by
  induction l with
  | nil => intro accA accB h1 h2; exact ⟨h1, h2⟩
  | cons pt rest ih =>
    intro accA accB h1 h2
    simp only [List.foldl_cons]
    have hstep1 : (runStep occA accA pt).1 ≤ (runStep occB accB pt).1 := by
      unfold runStep
      by_cases ha : occA pt = true
      · rw [if_pos ha, if_pos (h pt (List.mem_cons_self _ _) ha)]
        exact Nat.succ_le_succ h1
      · rw [if_neg ha]
        by_cases hb : occB pt = true
        · rw [if_pos hb]; exact Nat.zero_le _
        · rw [if_neg hb]
    have hstep2 : (runStep occA accA pt).2 ≤ (runStep occB accB pt).2 := by
      unfold runStep
      by_cases ha : occA pt = true
      · rw [if_pos ha, if_pos (h pt (List.mem_cons_self _ _) ha)]
        exact max_le_max h2 (Nat.succ_le_succ h1)
      · rw [if_neg ha]
        by_cases hb : occB pt = true
        · rw [if_pos hb]
          exact le_trans h2 (le_max_left _ _)
        · rw [if_neg hb]; exact h2
    exact ih (fun q hq => h q (List.mem_cons_of_mem _ hq)) _ _ hstep1 hstep2

/-- Pointwise-smaller occupancy yields a smaller maximum run. -/
theorem maxConsecutiveRun_mono {occA occB : Int → Bool}
    (h : ∀ pt, occA pt = true → occB pt = true) :
    maxConsecutiveRun occA ≤ maxConsecutiveRun occB :=
  (runFold_mono occA occB scanPoints (fun pt _ => h pt) (0, 0) (0, 0)
    le_rfl le_rfl).2

/-- Fevga moves into an opponent-held destination fail validation (shared by
the C4 analysis and the anti-prime inversion). -/
theorem validateMove_fevga_oppDest_false (input : MoveInput)
    (gs : GameStateCore) (dp : BoardPoint) (h25 : input.to_point ≠ 25)
    (hdp : findPoint gs.board_state input.to_point = some dp)
    (hne : dp.color ≠ none) (hnp : dp.color ≠ some input.player_color) :
    validateMove input gs .fevga = false := by
  have h25' : (input.to_point == 25) = false := by simpa using h25
  have e1 : (dp.color != none) = true := by simpa using hne
  have e2 : (dp.color != some input.player_color) = true := by simpa using hnp
  have hvr : validateVariantRules input gs .fevga dp = false := by
    unfold validateVariantRules
    simp [e1, e2]
  unfold validateMove
  rw [h25', hdp]
  cases hsp : findPoint gs.board_state input.from_point with
  | none => simp
  | some sp =>
    cases hbar : findPoint gs.board_state 0 with
    | none => simp [hvr]
    | some bp => simp [hvr]

/-- Inverting a successful Fevga `validateMove` on a non-bear-off move: the
destination entry exists, is not opponent-colored, and the simulated board
scan found no six-run. -/
theorem validateMove_fevga_inv {input : MoveInput} {gs : GameStateCore}
    (hv : validateMove input gs .fevga = true) (h25 : input.to_point ≠ 25) :
    ∃ dp, findPoint gs.board_state input.to_point = some dp ∧
      (dp.color = none ∨ dp.color = some input.player_color) ∧
      wouldCreateIllegalBlock input.to_point input.player_color
        gs.board_state = false := by
  have h25' : (input.to_point == 25) = false := by simpa using h25
  cases hdp : findPoint gs.board_state input.to_point with
  | none =>
    exfalso
    unfold validateMove at hv
    rw [h25', hdp] at hv
    cases hsp : findPoint gs.board_state input.from_point with
    | none => rw [hsp] at hv; simp at hv
    | some sp =>
      rw [hsp] at hv
      cases hbar : findPoint gs.board_state 0 with
      | none => rw [hbar] at hv; simp at hv
      | some bp => rw [hbar] at hv; simp at hv
  | some dp =>
    refine ⟨dp, rfl, ?_⟩
    have hcol : dp.color = none ∨ dp.color = some input.player_color := by
      by_contra hx
      push_neg at hx
      rw [validateMove_fevga_oppDest_false input gs dp h25 hdp hx.1 hx.2] at hv
      simp at hv
    refine ⟨hcol, ?_⟩
    unfold validateMove at hv
    rw [h25', hdp] at hv
    cases hsp : findPoint gs.board_state input.from_point with
    | none => rw [hsp] at hv; simp at hv
    | some sp =>
      rw [hsp] at hv
      cases hbar : findPoint gs.board_state 0 with
      | none =>
        rw [hbar] at hv
        simp only [validateVariantRules] at hv
        rcases hcol with h | h <;> (simp [h] at hv; tauto)
      | some bp =>
        rw [hbar] at hv
        simp only [validateVariantRules] at hv
        rcases hcol with h | h <;> (simp [h] at hv; tauto)

/-- C7 (corrected): the anti-prime rule lives in `validateMove`, not in the
enumerator — for every Fevga game state, applying (via `makeMove`'s board
update and move-type classification) any non-bear-off move that
`validateMove` accepts leaves the mover with fewer than 6 consecutive
occupied points among points 1-24. -/
theorem c7_antiPrime_amended (input : MoveInput) (gs : GameStateCore)
    (mt : MoveType)
    (hv : validateMove input gs .fevga = true)
    (h25 : input.to_point ≠ 25)
    (hmt : determineMoveType gs.board_state input = .ok mt) :
    maxConsecutiveRun (occupies (updateBoardState gs.board_state input mt)
      input.player_color) < 6 := by
  obtain ⟨dp, hdp, hcol, hblock⟩ := validateMove_fevga_inv hv h25
  have hmtn : mt ≠ .nail := by
    unfold determineMoveType at hmt
    by_cases ha : (input.to_point == 25) = true
    · rw [if_pos ha] at hmt
      intro hx; rw [hx] at hmt; simp at hmt
    · rw [if_neg ha] at hmt
      by_cases hb : (input.from_point == 0) = true
      · rw [if_pos hb] at hmt
        intro hx; rw [hx] at hmt; simp at hmt
      · rw [if_neg hb, hdp] at hmt
        simp only [] at hmt
        have hoppf : (dp.color != none && dp.color != some input.player_color)
            = false := by
          rcases hcol with h | h <;> simp [h]
        rw [hoppf] at hmt
        simp only [Bool.false_eq_true, if_false] at hmt
        intro hx; rw [hx] at hmt; simp at hmt
  have hmono := maxConsecutiveRun_mono
    (occupies_update_imp_simulate gs.board_state input mt hmtn)
  have hsim : maxConsecutiveRun (occupies
      (simulateFevgaMove gs.board_state input.to_point input.player_color)
      input.player_color) < 6 := by
    unfold wouldCreateIllegalBlock at hblock
    have := of_decide_eq_false hblock
    omega
  omega

/-- Counterexample for C7 as stated: with white on points 1-5, the Fevga
enumerator offers the move from point 2 to the empty point 6 with die 4
(`canMoveToPoint` never consults the anti-prime check); applying it leaves
white occupying the six consecutive points 1-6. -/
theorem c7_counterexample :
    CMove.mk 2 6 4 ∈ calculateAvailableMovesList c7GameState .fevga .white [4] ∧
    determineMoveType c7Board c7Input = .ok .move ∧
    6 ≤ maxConsecutiveRun (occupies (updateBoardState c7Board c7Input .move)
      .white) :=
  ⟨by decide, rfl, by decide⟩

/-- Witness for C7's amended theorem at a concrete accepted Fevga move. -/
theorem c7_witness :
    maxConsecutiveRun (occupies
      (updateBoardState c7WitnessBoard c7WitnessInput .move) .white) < 6 :=
  c7_antiPrime_amended c7WitnessInput c7WitnessGameState .move (by decide)
    (by decide) rfl

/-- Characterization of `List.min?` over the integers. -/
theorem intMin?_eq_some_iff (l : List Int) (a : Int) :
    l.min? = some a ↔ a ∈ l ∧ ∀ b ∈ l, a ≤ b :=
  @List.min?_eq_some_iff Int a _ _ ⟨fun h1 h2 => le_antisymm h1 h2⟩
    (fun x => le_refl x) (fun x y => min_choice x y) (fun _ _ _ => le_min_iff) l

/-- Characterization of `List.max?` over the integers. -/
theorem intMax?_eq_some_iff (l : List Int) (a : Int) :
    l.max? = some a ↔ a ∈ l ∧ ∀ b ∈ l, b ≤ a :=
  @List.max?_eq_some_iff Int a _ _ ⟨fun h1 h2 => le_antisymm h1 h2⟩
    (fun x => le_refl x) (fun x y => max_choice x y) (fun _ _ _ => max_le_iff) l

/-- Running `all` after `filter` tests the conjunction-style predicate. -/
theorem all_filter_eq (P Q : BoardPoint → Bool) (l : List BoardPoint) :
    (l.filter P).all Q = l.all (fun a => !P a || Q a) := by
  induction l with
  | nil => rfl
  | cons hd tl ih =>
    rw [List.filter_cons]
    by_cases h : P hd = true
    · rw [if_pos h]
      simp [h, ih]
    · rw [if_neg h]
      have h' : P hd = false := Bool.eq_false_iff.mpr h
      simp [h', ih]

/-- Congruence for `List.all` under pointwise-equal predicates. -/
theorem all_congr_eq (l : List BoardPoint) (f g : BoardPoint → Bool)
    (h : ∀ x ∈ l, f x = g x) : l.all f = l.all g := by
  induction l with
  | nil => rfl
  | cons hd tl ih =>
    simp only [List.all_cons]
    rw [h hd (List.mem_cons_self _ _),
      ih (fun x hx => h x (List.mem_cons_of_mem _ hx))]

/-- The source's home-board membership test agrees with the claim's range
test. -/
theorem contains_home (c : Color) (pt : Int) :
    (getHomeBoardPoints c).contains pt = inHomeRange c pt := by
  cases c <;>
    · rw [Bool.eq_iff_iff]
      simp [getHomeBoardPoints, inHomeRange, List.contains]
      omega

/-- Points inside a home range lie in 1..24. -/
theorem inHomeRange_bounds {c : Color} {pt : Int}
    (h : inHomeRange c pt = true) : 1 ≤ pt ∧ pt ≤ 24 := by
  cases c <;> simp [inHomeRange] at h <;> omega

/-- Equality with the list minimum is the claim's furthest-point test
(white direction). -/
theorem beq_min_eq_contains_all (pts : List Int) (m fromPoint : Int)
    (hm : pts.min? = some m) :
    (fromPoint == m) =
      (pts.contains fromPoint && pts.all (fun q => decide (fromPoint ≤ q))) := by
  obtain ⟨hmem, hle⟩ := (intMin?_eq_some_iff pts m).mp hm
  rw [Bool.eq_iff_iff]
  simp only [beq_iff_eq, Bool.and_eq_true, List.elem_iff, List.all_eq_true,
    decide_eq_true_eq]
  constructor
  · rintro rfl
    exact ⟨hmem, hle⟩
  · rintro ⟨hin, hall⟩
    exact le_antisymm (hall m hmem) (hle fromPoint hin)

/-- Equality with the list maximum is the claim's furthest-point test
(black direction). -/
theorem beq_max_eq_contains_all (pts : List Int) (m fromPoint : Int)
    (hm : pts.max? = some m) :
    (fromPoint == m) =
      (pts.contains fromPoint && pts.all (fun q => decide (q ≤ fromPoint))) := by
  obtain ⟨hmem, hle⟩ := (intMax?_eq_some_iff pts m).mp hm
  rw [Bool.eq_iff_iff]
  simp only [beq_iff_eq, Bool.and_eq_true, List.elem_iff, List.all_eq_true,
    decide_eq_true_eq]
  constructor
  · rintro rfl
    exact ⟨hmem, hle⟩
  · rintro ⟨hin, hall⟩
    exact le_antisymm (hle fromPoint hin) (hall m hmem)

/-- Lemma: `validateBearOff` agrees with the claim's bear-off predicate whenever
the die is in 1..6 and the source point holds the mover's checkers. -/
theorem validateBearOff_eq_bearOffSpec (b : Board) (fromPoint diceValue : Int)
    (c : Color) (sp : BoardPoint)
    (hsp : findPoint b fromPoint = some sp)
    (hc : sp.color = some c) (hn : sp.count ≠ 0)
    (hdie1 : 1 ≤ diceValue) (hdie6 : diceValue ≤ 6) :
    validateBearOff fromPoint diceValue c b =
      bearOffSpec b fromPoint diceValue c := by
  have hspP : (sp.color == some c && decide (0 < sp.count)) = true := by
    simp [hc]
    omega
  have hspb : sp ∈ b := mem_of_findPoint_eq_some hsp
  have hsppt : sp.point = fromPoint := point_of_findPoint_eq_some hsp
  have hAll : ((b.filter (fun p => p.color == some c && decide (0 < p.count))).all
      (fun p => (getHomeBoardPoints c).contains p.point || p.point == 25))
      = everyCheckerHome b c := by
    rw [all_filter_eq]
    apply all_congr_eq
    intro x _
    by_cases hp : (x.color == some c && decide (0 < x.count)) = true
    · rw [hp]
      simp only [Bool.not_true, Bool.false_or, if_true]
      rw [contains_home]
    · rw [Bool.eq_false_iff.mpr hp]
      simp [Bool.eq_false_iff.mpr hp]
  unfold validateBearOff bearOffSpec
  simp only []
  rw [hAll]
  cases hEH : everyCheckerHome b c with
  | false => simp
  | true =>
    simp only [Bool.not_true, Bool.false_eq_true, if_false, Bool.true_and]
    have hQsp : (inHomeRange c fromPoint || fromPoint == 25) = true := by
      unfold everyCheckerHome at hEH
      have h1 := List.all_eq_true.mp hEH sp hspb
      rw [hspP] at h1
      simp only [if_true] at h1
      rwa [hsppt] at h1
    by_cases hf25 : fromPoint = 25
    · have hcont : (getHomeBoardPoints c).contains fromPoint = false := by
        rw [hf25]
        cases c <;> decide
      rw [hcont]
      simp only [Bool.not_false, if_true]
      have h25f : ((occupiedPoints b c).contains fromPoint) = false := by
        rw [Bool.eq_false_iff]
        intro hx
        obtain ⟨p, hpmem, hppt⟩ := List.mem_map.mp (List.elem_iff.mp hx)
        have hpp := (List.mem_filter.mp hpmem).2
        rw [hppt, hf25] at hpp
        simp at hpp
      unfold isFurthestFromHome
      rw [h25f]
      simp only [Bool.false_and, Bool.and_false, Bool.or_false]
      rw [hf25]
      cases c with
      | white =>
        simp only [if_true]
        simp
        omega
      | black =>
        simp only [reduceCtorEq, if_false]
        simp
        omega
    · have hf25b : (fromPoint == 25) = false := by simp [hf25]
      have hhome : inHomeRange c fromPoint = true := by
        have hQsp' : inHomeRange c fromPoint = true ∨ fromPoint = 25 := by
          simpa using hQsp
        rcases hQsp' with h | h
        · exact h
        · exact absurd h hf25
      have hcont : (getHomeBoardPoints c).contains fromPoint = true := by
        rw [contains_home]
        exact hhome
      have hfb := inHomeRange_bounds hhome
      rw [hcont]
      simp only [Bool.not_true, Bool.false_eq_true, if_false]
      by_cases hde : ((if c = Color.white then 25 - fromPoint else fromPoint)
          == diceValue) = true
      · rw [hde]
        simp
      · rw [Bool.eq_false_iff.mpr hde]
        simp only [Bool.false_eq_true, if_false, Bool.false_or]
        by_cases hlt : (if c = Color.white then 25 - fromPoint else fromPoint)
            < diceValue
        · have hltT : decide ((if c = Color.white then 25 - fromPoint
              else fromPoint) < diceValue) = true := by simp [hlt]
          rw [hltT]
          simp only [if_true, Bool.true_and]
          have hL : ((b.filter (fun p => p.color == some c && decide (0 < p.count))).filter
                (fun p => p.point != 25 && p.point != 0))
              = b.filter (fun p => p.color == some c && decide (0 < p.count)
                  && p.point != 25) := by
            rw [List.filter_filter]
            apply List.filter_congr
            intro a ha
            by_cases hp : (a.color == some c && decide (0 < a.count)) = true
            · have hQa : (inHomeRange c a.point || a.point == 25) = true := by
                unfold everyCheckerHome at hEH
                have h1 := List.all_eq_true.mp hEH a ha
                rw [hp] at h1
                simpa using h1
              by_cases h25a : a.point = 25
              · simp [hp, h25a]
              · have hhomea : inHomeRange c a.point = true := by
                  have hQa' : inHomeRange c a.point = true ∨ a.point = 25 := by
                    simpa using hQa
                  rcases hQa' with h | h
                  · exact h
                  · exact absurd h h25a
                have hba := inHomeRange_bounds hhomea
                have h0a : a.point ≠ 0 := by omega
                simp [hp, h25a, h0a]
            · have hp' := Bool.eq_false_iff.mpr hp
              simp [hp']
          rw [hL]
          have hmem2 : sp ∈ b.filter (fun p => p.color == some c
              && decide (0 < p.count) && p.point != 25) := by
            refine List.mem_filter.mpr ⟨hspb, ?_⟩
            rw [hspP, hsppt]
            simpa using hf25
          have hmemPt : fromPoint ∈ (b.filter (fun p => p.color == some c
              && decide (0 < p.count) && p.point != 25)).map (fun p => p.point) :=
            List.mem_map.mpr ⟨sp, hmem2, hsppt⟩
          have hniE : (b.filter (fun p => p.color == some c
              && decide (0 < p.count) && p.point != 25)).isEmpty = false := by
            cases hl : b.filter (fun p => p.color == some c
                && decide (0 < p.count) && p.point != 25) with
            | nil => rw [hl] at hmem2; exact absurd hmem2 (List.not_mem_nil _)
            | cons x xs => rfl
          rw [hniE]
          simp only [Bool.false_eq_true, if_false]
          unfold isFurthestFromHome occupiedPoints
          cases c with
          | white =>
            simp only [if_true]
            cases hm : (b.filter (fun p => p.color == some Color.white
                && decide (0 < p.count) && p.point != 25)).map (fun p => p.point)
                |>.min? with
            | none =>
              rw [List.min?_eq_none_iff] at hm
              rw [hm] at hmemPt
              exact absurd hmemPt (List.not_mem_nil _)
            | some m =>
              simp only []
              rw [beq_min_eq_contains_all _ m fromPoint hm]
              rw [if_pos (show (25 - fromPoint < diceValue) from by simpa using hlt)]
          | black =>
            simp only [reduceCtorEq, if_false]
            cases hm : (b.filter (fun p => p.color == some Color.black
                && decide (0 < p.count) && p.point != 25)).map (fun p => p.point)
                |>.max? with
            | none =>
              rw [List.max?_eq_none_iff] at hm
              rw [hm] at hmemPt
              exact absurd hmemPt (List.not_mem_nil _)
            | some m =>
              simp only []
              rw [beq_max_eq_contains_all _ m fromPoint hm]
              rw [if_pos (show (fromPoint < diceValue) from by simpa using hlt)]
        · have hltF : decide ((if c = Color.white then 25 - fromPoint
              else fromPoint) < diceValue) = false := by simp [hlt]
          rw [if_neg hlt, hltF]
          simp

/-- C5: under the preliminary checks (die listed in `dice` and
`available_moves`, in-range source holding the mover's checkers, die value
1..6), `validateMove` on a bear-off request (`to_point = 25`) decides exactly
the claim's predicate: every checker home, and the die either matches the
exact boundary distance or over-bears from the furthest-from-home occupied
point — for every variant. -/
theorem c5_validateMove_bearOff (input : MoveInput) (gs : GameStateCore)
    (variant : Variant) (sp : BoardPoint)
    (hto : input.to_point = 25)
    (hd : gs.dice.contains input.dice_value = true)
    (ha : gs.available_moves.contains input.dice_value = true)
    (hf0 : 0 ≤ input.from_point) (hf25 : input.from_point ≤ 25)
    (hsp : findPoint gs.board_state input.from_point = some sp)
    (hc : sp.color = some input.player_color) (hn : sp.count ≠ 0)
    (hdie1 : 1 ≤ input.dice_value) (hdie6 : input.dice_value ≤ 6) :
    validateMove input gs variant =
      bearOffSpec gs.board_state input.from_point input.dice_value
        input.player_color := by
  unfold validateMove
  have hdm : input.dice_value ∈ gs.dice := by simpa using hd
  have ham : input.dice_value ∈ gs.available_moves := by simpa using ha
  have hd' : (!gs.dice.contains input.dice_value) = false := by simp [hdm]
  have ha' : (!gs.available_moves.contains input.dice_value) = false := by
    simp [ham]
  rw [hd', ha']
  simp only [Bool.false_eq_true, if_false]
  have hb' : (decide (input.from_point < 0) || decide (input.from_point > 25)
      || decide (input.to_point < 0) || decide (input.to_point > 25)) = false := by
    simp [hto]
    omega
  rw [hb']
  simp only [Bool.false_eq_true, if_false]
  rw [hsp]
  simp only []
  have hsrc : (sp.color != some input.player_color || sp.count == 0) = false := by
    simp [hc, hn]
  rw [hsrc]
  simp only [Bool.false_eq_true, if_false]
  have hto' : (input.to_point == 25) = true := by simp [hto]
  cases hbar : findPoint gs.board_state 0 with
  | none =>
    simp only []
    rw [hto']
    simp only [Bool.false_eq_true, if_false, if_true]
    exact validateBearOff_eq_bearOffSpec _ _ _ _ sp hsp hc hn hdie1 hdie6
  | some bp =>
    simp only []
    by_cases hbb : (bp.color == some input.player_color && decide (0 < bp.count)
        && input.from_point != 0) = true
    · rw [if_pos hbb]
      have hbc : (bp.color = some input.player_color ∧ 0 < bp.count)
          ∧ ¬input.from_point = 0 := by
        simpa using hbb
      have hbmem : bp ∈ gs.board_state := mem_of_findPoint_eq_some hbar
      have hbpt : bp.point = 0 := point_of_findPoint_eq_some hbar
      have hEH : everyCheckerHome gs.board_state input.player_color = false := by
        rw [Bool.eq_false_iff]
        intro hT
        unfold everyCheckerHome at hT
        have h1 := List.all_eq_true.mp hT bp hbmem
        have hp : (bp.color == some input.player_color
            && decide (0 < bp.count)) = true := by
          simp [hbc.1.1]
          exact hbc.1.2
        rw [hp] at h1
        simp only [if_true] at h1
        rw [hbpt] at h1
        cases hq : input.player_color <;>
          rw [hq] at h1 <;> simp [inHomeRange] at h1
      unfold bearOffSpec
      simp only []
      rw [hEH]
      simp
    · rw [if_neg hbb]
      rw [hto']
      simp only [if_true]
      exact validateBearOff_eq_bearOffSpec _ _ _ _ sp hsp hc hn hdie1 hdie6

/-- Witness for C5 at the claim's concrete board: white only at 20 (one
checker) and 23 (two), dice [6, 4]; die 6 from point 20 over-bears legally. -/
theorem c5_witness : validateMove c5Input c5GameState .portes = true :=
  (c5_validateMove_bearOff c5Input c5GameState .portes ⟨20, some .white, 1⟩
    rfl (by decide) (by decide) (by decide) (by decide) (by decide) rfl
    (by decide) (by decide) (by decide)).trans (by decide)

end Tavli